import Mathlib

set_option maxHeartbeats 1000000

namespace Logtide

/-!
Shallow embedding of the logtide log-management backend, covering the
notification publisher, the notification listener/subscriber registry,
the ingestion validation schema, the queue supervisor caches, the
external key-value queue reconnect policy, and the incident correlator.
Definitions are translated from the TypeScript sources; external I/O
(database sends, JSON parsing, network outcomes) is passed in as
explicit function or boolean parameters.
-/

/-! ## Notification publisher (notification-publisher.ts) -/

/-- Maximum payload size for PostgreSQL NOTIFY (8KB minus safety margin). -/
def MAX_PAYLOAD_SIZE : Nat := 7900

/-- Approximate size per log ID (UUID + JSON overhead). -/
def BYTES_PER_LOG_ID : Nat := 40

/-- Maximum log IDs per chunk based on payload size
(`Math.floor(MAX_PAYLOAD_SIZE / BYTES_PER_LOG_ID)`). -/
def MAX_LOG_IDS_PER_CHUNK : Nat := MAX_PAYLOAD_SIZE / BYTES_PER_LOG_ID

/-- The chunking `for` loop of `publishLogIngestion`:
`for (let i = 0; i < logIds.length; i += MAX_LOG_IDS_PER_CHUNK)` sending
`logIds.slice(i, i + MAX_LOG_IDS_PER_CHUNK)` at each step. -/
def chunkLoop : List String → List (List String)
  | [] => []
  | x :: xs =>
    ((x :: xs).take MAX_LOG_IDS_PER_CHUNK) :: chunkLoop ((x :: xs).drop MAX_LOG_IDS_PER_CHUNK)
termination_by l => l.length
decreasing_by
  simp [MAX_LOG_IDS_PER_CHUNK, MAX_PAYLOAD_SIZE, BYTES_PER_LOG_ID]
  omega

/-- The sequence of `logIds` chunks sent by `NotificationPublisher.publishLogIngestion`:
an empty input sends nothing; an input larger than `MAX_LOG_IDS_PER_CHUNK`
is sent through the chunk loop; otherwise a single notification carries
the whole list. -/
def publishLogIngestionChunks (logIds : List String) : List (List String) :=
  if logIds.length = 0 then []
  else if logIds.length > MAX_LOG_IDS_PER_CHUNK then chunkLoop logIds
  else [logIds]

/-- Sequential sending of the chunks: `await this.sendNotification(projectId, chunk)`
inside the loop.  `send` stands for the fallible `sendNotification` database
call; a failure aborts the remaining sends and propagates. -/
def sendAll (send : String → List String → Except String Unit) (projectId : String) :
    List (List String) → Except String Unit
  | [] => .ok ()
  | c :: cs =>
    match send projectId c with
    | .ok _ => sendAll send projectId cs
    | .error e => .error e

/-- Full `publishLogIngestion` with its `try`/`catch`.  The result type is
`Except` so that a thrown error would be visible as `.error`; the `catch`
clause turns any failure of the body into a normal return whose payload
records the logged error message. -/
def publishLogIngestion (send : String → List String → Except String Unit)
    (projectId : String) (logIds : List String) : Except String (Option String) :=
  if logIds.length = 0 then .ok none
  else
    match sendAll send projectId (publishLogIngestionChunks logIds) with
    | .ok _ => .ok none
    | .error e => .ok (some e)

/-! ## Ingestion validation schema (packages/shared/src/schemas/index.ts) -/

/-- Log levels, the source of truth list from `log-constants.ts`. -/
def LOG_LEVELS : List String := ["debug", "info", "warn", "error", "critical"]

/-- The `time` field of a log input: `z.string().datetime().or(z.date())`,
either a string (validated as an ISO datetime) or a JS `Date` object. -/
inductive TimeValue
  | str (s : String)
  | date
deriving DecidableEq

def isDigitChar (c : Char) : Bool := '0' ≤ c && c ≤ '9'

/-- Consume exactly `n` digits. -/
def takeDigits : Nat → List Char → Option (List Char)
  | 0, cs => some cs
  | _ + 1, [] => none
  | n + 1, c :: cs => if isDigitChar c then takeDigits n cs else none

/-- Consume one expected literal character. -/
def takeLit (ch : Char) : List Char → Option (List Char)
  | [] => none
  | c :: cs => if c == ch then some cs else none

/-- Consume an optional fractional-seconds group `(\.\d+)?`. -/
def takeFracOpt : List Char → Option (List Char)
  | '.' :: rest =>
    match rest with
    | c :: _ => if isDigitChar c then some (rest.dropWhile isDigitChar) else none
    | [] => none
  | cs => some cs

/-- `z.string().datetime()` default validation: the ISO-8601 UTC pattern
`^\d\x7b4\x7d-\d\x7b2\x7d-\d\x7b2\x7dT\d\x7b2\x7d:\d\x7b2\x7d:\d\x7b2\x7d(\.\d+)?Z$`
(no timezone offsets, optional sub-second precision). -/
def isZodDatetime (s : String) : Bool :=
  let r := do
    let r1 ← takeDigits 4 s.toList
    let r2 ← takeLit '-' r1
    let r3 ← takeDigits 2 r2
    let r4 ← takeLit '-' r3
    let r5 ← takeDigits 2 r4
    let r6 ← takeLit 'T' r5
    let r7 ← takeDigits 2 r6
    let r8 ← takeLit ':' r7
    let r9 ← takeDigits 2 r8
    let r10 ← takeLit ':' r9
    let r11 ← takeDigits 2 r10
    let r12 ← takeFracOpt r11
    takeLit 'Z' r12
  match r with
  | some [] => true
  | _ => false

def timeValid : TimeValue → Bool
  | .str s => isZodDatetime s
  | .date => true

/-- One log input as accepted by `logSchema` (field shapes; `metadata` is an
unconstrained free-form record and is omitted, `trace_id` is an
unconstrained optional string). -/
structure LogInput where
  time : TimeValue
  service : String
  level : String
  message : String
  trace_id : Option String := none
  span_id : Option String := none
deriving DecidableEq

/-- Character class of the span_id regex `/^[a-f0-9]\x7b16\x7d$/i`: the `i`
flag makes the letter range case-insensitive. -/
def isHexDigitCI (c : Char) : Bool :=
  ('0' ≤ c && c ≤ '9') || ('a' ≤ c && c ≤ 'f') || ('A' ≤ c && c ≤ 'F')

/-- Optional `span_id`: when present it must match `/^[a-f0-9]\x7b16\x7d$/i`. -/
def spanIdValid : Option String → Bool
  | none => true
  | some sid => sid.toList.length == 16 && sid.toList.all isHexDigitCI

/-- Per-log validation of `logSchema`. -/
def logValid (l : LogInput) : Bool :=
  timeValid l.time &&
  decide (1 ≤ l.service.length) && decide (l.service.length ≤ 100) &&
  LOG_LEVELS.contains l.level &&
  decide (1 ≤ l.message.length) &&
  spanIdValid l.span_id

/-- `ingestRequestSchema`: `z.array(logSchema).min(1).max(1000)`. -/
def ingestRequestValid (logs : List LogInput) : Bool :=
  decide (1 ≤ logs.length) && decide (logs.length ≤ 1000) && logs.all logValid

/-- Lowercase-only hex character class, as claim C5 words it. -/
def isHexDigitLower (c : Char) : Bool :=
  ('0' ≤ c && c ≤ '9') || ('a' ≤ c && c ≤ 'f')

/-- Span check following claim C5's words: lowercase pattern `^[a-f0-9]\x7b16\x7d$`. -/
def spanIdClaimedValid : Option String → Bool
  | none => true
  | some sid => sid.toList.length == 16 && sid.toList.all isHexDigitLower

/-- Per-log condition exactly as claim C5 words it (service length, level,
non-empty message, lowercase-hex span_id; no condition on `time`). -/
def logClaimedValid (l : LogInput) : Bool :=
  decide (1 ≤ l.service.length) && decide (l.service.length ≤ 100) &&
  LOG_LEVELS.contains l.level &&
  decide (1 ≤ l.message.length) &&
  spanIdClaimedValid l.span_id

/-- Batch condition exactly as claim C5 words it. -/
def batchClaimedValid (logs : List LogInput) : Bool :=
  decide (1 ≤ logs.length) && decide (logs.length ≤ 1000) && logs.all logClaimedValid

/-- Concrete log whose span_id is uppercase hex: accepted by the schema
(case-insensitive regex) but violating claim C5's lowercase pattern. -/
def upperSpanLog : LogInput :=
  { time := .str "2024-01-01T00:00:00Z", service := "api", level := "info",
    message := "m", span_id := some "ABCDEF0123456789" }

/-- Concrete log whose `time` string is not a datetime: rejected by the
schema although it satisfies every condition claim C5 lists. -/
def badTimeLog : LogInput :=
  { time := .str "not-a-datetime", service := "api", level := "info", message := "m" }

/-- Concrete fully valid log input. -/
def goodLog : LogInput :=
  { time := .str "2024-01-01T00:00:00.123Z", service := "api", level := "error",
    message := "boom", span_id := some "abcdef0123456789" }

/-! ## External key-value queue reconnect policy (queue-factory.ts, initialize) -/

/-- `retryStrategy` passed to the Redis client:
`Math.min(times * 1000, 30000)`. -/
def retryStrategy (times : Nat) : Nat := min (times * 1000) 30000

/-- Transient error markers checked by `reconnectOnError`. -/
def redisTargetErrors : List String := ["READONLY", "ECONNRESET", "ECONNREFUSED"]

/-- Character-list matching of `needle` at the head of `hay`. -/
def charsMatchFrom : List Char → List Char → Bool
  | [], _ => true
  | _ :: _, [] => false
  | a :: as, b :: bs => a == b && charsMatchFrom as bs

/-- JS `hay.includes(needle)`: `needle` occurs as a contiguous substring. -/
def strContainsSub (hay needle : String) : Bool :=
  (List.range (hay.toList.length + 1)).any
    (fun i => charsMatchFrom needle.toList (hay.toList.drop i))

/-- `reconnectOnError`: reconnect only when the error message includes one
of the known transient markers. -/
def reconnectOnError (message : String) : Bool :=
  redisTargetErrors.any (fun e => strContainsSub message e)

/-! ## Association-list model of a JS `Map` (insertion-ordered, unique keys) -/

/-- `Map.set`: replace the entry in place if the key exists, else append. -/
def assocSet {α : Type} (k : String) (v : α) : List (String × α) → List (String × α)
  | [] => [(k, v)]
  | (k', v') :: rest =>
    if k' = k then (k, v) :: rest else (k', v') :: assocSet k v rest

/-- `Map.get`: first entry with the key. -/
def assocGet {α : Type} (k : String) : List (String × α) → Option α
  | [] => none
  | (k', v') :: rest => if k' = k then some v' else assocGet k rest

/-- `Map.delete`: remove the entry with the key. -/
def assocDelete {α : Type} (k : String) : List (String × α) → List (String × α)
  | [] => []
  | (k', v') :: rest => if k' = k then rest else (k', v') :: assocDelete k rest

/-- `Map.keys()` in insertion order. -/
def assocKeys {α : Type} (m : List (String × α)) : List String := m.map Prod.fst

/-- `Map.values()` in insertion order. -/
def assocValues {α : Type} (m : List (String × α)) : List α := m.map Prod.snd

/-! ## Notification listener (notification-manager.ts, src/unnamed/part_007) -/

/-- Parsed payload of a `logs_new` notification. -/
structure LogNotificationEvent where
  projectId : String
  logIds : List String
  timestamp : String
deriving DecidableEq

/-- Subscriber registered with the notification manager.  The
`onNotification` callback closure is represented by an identity token. -/
structure LogSubscriber where
  id : String
  projectId : String
  services : Option (List String) := none
  levels : Option (List String) := none
  onNotification : Nat := 0
deriving DecidableEq

/-- Mutable state of the `NotificationManager` singleton.  The `pg` client
object is abstracted to its existence, and every `this.emit(...)` call is
recorded in `emittedEvents` in order. -/
structure NMState where
  subscribers : List (String × LogSubscriber)
  databaseUrl : Option String
  clientExists : Bool
  isConnected : Bool
  isShuttingDown : Bool
  reconnectTimerSet : Bool
  reconnectAttempts : Nat
  emittedEvents : List String
deriving DecidableEq

def maxReconnectAttempts : Nat := 10

/-- `scheduleReconnect`: returns the new state and the backoff delay of the
timer it sets, `none` when no timer is scheduled (timer already pending,
shutting down, or attempts exhausted — the last case only logs). -/
def scheduleReconnect (s : NMState) : NMState × Option Nat :=
  if s.reconnectTimerSet || s.isShuttingDown then (s, none)
  else
    let attempts := s.reconnectAttempts + 1
    if attempts > maxReconnectAttempts then
      ({ s with reconnectAttempts := attempts }, none)
    else
      let delay := min (1000 * 2 ^ (attempts - 1)) 30000
      ({ s with reconnectAttempts := attempts, reconnectTimerSet := true }, some delay)

/-- `handleDisconnect`: mark disconnected, emit `disconnected`, drop the
client, and schedule a reconnect unless shutting down. -/
def handleDisconnect (s : NMState) : NMState × Option Nat :=
  let s1 := { s with
    isConnected := false,
    emittedEvents := s.emittedEvents ++ ["disconnected"],
    clientExists := false }
  if s1.isShuttingDown then (s1, none) else scheduleReconnect s1

/-- `connect`: throws when no database URL is set; otherwise the network
outcome is the `ok` parameter — on success the client listens, the attempt
counter resets and `connected` is emitted; on failure the `catch` clause
clears the client and schedules a reconnect. -/
def connect (ok : Bool) (s : NMState) : Except String (NMState × Option Nat) :=
  match s.databaseUrl with
  | none => .error "Database URL not set"
  | some _ =>
    if ok then
      .ok ({ s with
        clientExists := true,
        isConnected := true,
        reconnectAttempts := 0,
        emittedEvents := s.emittedEvents ++ ["connected"] }, none)
    else
      .ok (scheduleReconnect { s with clientExists := false })

/-- Firing of the reconnect timer: clear the timer slot, then `connect`. -/
def reconnectTimerFire (ok : Bool) (s : NMState) : Except String (NMState × Option Nat) :=
  connect ok { s with reconnectTimerSet := false }

/-- `subscribe`: `Map.set` on the registry; the returned unsubscribe handle
is a closure over `subscriber.id`, represented by that id. -/
def subscribe (sub : LogSubscriber) (s : NMState) : NMState × String :=
  ({ s with subscribers := assocSet sub.id sub s.subscribers }, sub.id)

/-- `unsubscribe`: `Map.delete` on the registry. -/
def unsubscribe (subscriberId : String) (s : NMState) : NMState :=
  { s with subscribers := assocDelete subscriberId s.subscribers }

/-- `shutdown`: clear the timer, close the client, clear all subscribers. -/
def shutdownNM (s : NMState) : NMState :=
  { s with
    isShuttingDown := true,
    reconnectTimerSet := false,
    clientExists := false,
    subscribers := [],
    isConnected := false }

/-- Incoming `pg.Notification` message. -/
structure PgNotification where
  channel : String
  payload : Option String
deriving DecidableEq

/-- JS falsiness of `msg.payload`: absent or the empty string. -/
def payloadFalsy : Option String → Bool
  | none => true
  | some p => p == ""

/-- `handleNotification`: returns the list of subscribers whose callback is
dispatched.  `parseJson` stands for `JSON.parse` on the payload (`none`
when it throws); messages on other channels, falsy payloads, and parse
failures dispatch to nobody; otherwise the registry values are filtered by
`projectId` equality. -/
def handleNotification (parseJson : String → Option LogNotificationEvent)
    (s : NMState) (msg : PgNotification) : List LogSubscriber :=
  if msg.channel != "logs_new" || payloadFalsy msg.payload then []
  else
    match msg.payload with
    | none => []
    | some p =>
      match parseJson p with
      | none => []
      | some event =>
        (assocValues s.subscribers).filter (fun sub => sub.projectId == event.projectId)

/-- Registry call sequence element for the subscribe/unsubscribe invariant. -/
inductive RegOp
  | sub (subscriber : LogSubscriber)
  | unsub (id : String)

/-- Apply a sequence of subscribe/unsubscribe calls. -/
def applyOps : List RegOp → NMState → NMState
  | [], s => s
  | .sub x :: rest, s => applyOps rest (subscribe x s).1
  | .unsub i :: rest, s => applyOps rest (unsubscribe i s)

/-- Fresh manager state (constructor). -/
def initialNMState : NMState :=
  { subscribers := [], databaseUrl := none, clientExists := false, isConnected := false,
    isShuttingDown := false, reconnectTimerSet := false, reconnectAttempts := 0,
    emittedEvents := [] }

/-- Concrete state: ten reconnect attempts have already failed, not shutting
down, no timer pending. -/
def nmAfterTenFailures : NMState :=
  { subscribers := [], databaseUrl := some "postgres", clientExists := false,
    isConnected := false, isShuttingDown := false, reconnectTimerSet := false,
    reconnectAttempts := 10, emittedEvents := [] }

/-- Concrete JSON parse behaviour used in witnesses: one known payload. -/
def parseW : String → Option LogNotificationEvent :=
  fun p =>
    if p == "PAYLOAD1" then some ⟨"P1", ["id1"], "2024-01-01T00:00:00Z"⟩ else none

/-- Concrete subscriber used in witnesses. -/
def subW : LogSubscriber := { id := "conn1", projectId := "P1", onNotification := 7 }

/-- Concrete manager state holding `subW`. -/
def nmStateW : NMState := { initialNMState with subscribers := [("conn1", subW)] }

/-- Concrete notification message used in witnesses. -/
def msgW : PgNotification := { channel := "logs_new", payload := some "PAYLOAD1" }

/-! ## Queue supervisor caches (queue-factory.ts) -/

inductive QueueBackend
  | bullmq
  | graphile
deriving DecidableEq

/-- A queue adapter instance; `instId` is the object identity of the
freshly constructed adapter. -/
structure QueueInst where
  instId : Nat
  backend : QueueBackend
  qname : String
deriving DecidableEq

/-- A worker adapter instance; `processorTok` identifies the processor
closure it was constructed with. -/
structure WorkerInst where
  instId : Nat
  backend : QueueBackend
  wname : String
  processorTok : Nat
deriving DecidableEq

/-- State of the `QueueSystemManager` singleton: configuration and the two
instance caches.  `nextId` generates fresh object identities. -/
structure QSState where
  config : Option QueueBackend
  queueCache : List (String × QueueInst)
  workerCache : List (String × WorkerInst)
  nextId : Nat
deriving DecidableEq

/-- `createQueue`: throw if not initialised; return the cached instance when
present; otherwise construct a backend-specific adapter and cache it. -/
def createQueue (name : String) (s : QSState) : Except String (QueueInst × QSState) :=
  match s.config with
  | none => .error "Not initialized. Call initialize() first."
  | some backend =>
    match assocGet name s.queueCache with
    | some cached => .ok (cached, s)
    | none =>
      let queue : QueueInst := ⟨s.nextId, backend, name⟩
      .ok (queue, { s with
        queueCache := assocSet name queue s.queueCache,
        nextId := s.nextId + 1 })

/-- `createWorker`: same caching policy; the processor argument is only used
when constructing a new instance, so it is ignored on a cache hit. -/
def createWorker (name : String) (processorTok : Nat) (s : QSState) :
    Except String (WorkerInst × QSState) :=
  match s.config with
  | none => .error "Not initialized. Call initialize() first."
  | some backend =>
    match assocGet name s.workerCache with
    | some cached => .ok (cached, s)
    | none =>
      let worker : WorkerInst := ⟨s.nextId, backend, name, processorTok⟩
      .ok (worker, { s with
        workerCache := assocSet name worker s.workerCache,
        nextId := s.nextId + 1 })

/-- Concrete initialised supervisor state. -/
def qsInit : QSState := { config := some .bullmq, queueCache := [], workerCache := [], nextId := 0 }

/-- Queue instance created by the first `createQueue "scan"` call on `qsInit`. -/
def queueW : QueueInst := { instId := 0, backend := .bullmq, qname := "scan" }

/-- Supervisor state after the first `createQueue "scan"` call on `qsInit`. -/
def qsAfterQueueW : QSState :=
  { config := some .bullmq, queueCache := [("scan", queueW)], workerCache := [], nextId := 1 }

/-- Worker instance created by the first `createWorker "scan" 5` call on `qsInit`. -/
def workerW : WorkerInst := { instId := 0, backend := .bullmq, wname := "scan", processorTok := 5 }

/-- Supervisor state after the first `createWorker "scan" 5` call on `qsInit`. -/
def qsAfterWorkerW : QSState :=
  { config := some .bullmq, queueCache := [], workerCache := [("scan", workerW)], nextId := 1 }

/-! ## Incident correlator (spec section 4.J; no correlator code ships under src/) -/

/-- Severity values (`SEVERITIES` in siem-constants). -/
inductive Severity
  | critical
  | high
  | medium
  | low
  | informational
deriving DecidableEq

/-- `getSeverityWeight` from `packages/shared/src/utils/severity.ts`. -/
def getSeverityWeight : Severity → Nat
  | .critical => 5
  | .high => 4
  | .medium => 3
  | .low => 2
  | .informational => 1

/-- Modelled from the spec: severity `max` under the weight order
critical=5 > high=4 > medium=3 > low=2 > informational=1. -/
def maxSeverity (a b : Severity) : Severity :=
  if getSeverityWeight a < getSeverityWeight b then b else a

/-- Incident statuses (`INCIDENT_STATUSES` in siem-constants). -/
inductive IncidentStatus
  | open_
  | investigating
  | resolved
  | false_positive
deriving DecidableEq

/-- A detection event as consumed by the correlator. -/
structure DetectionEvent where
  tenant : String
  project : String
  ruleId : String
  severity : Severity
  service : String
deriving DecidableEq

/-- An incident row. -/
structure Incident where
  tenant : String
  project : String
  ruleFamily : String
  status : IncidentStatus
  severity : Severity
  detectionCount : Nat
  affectedServices : List String
  createdAt : Nat
  updatedAt : Nat
deriving DecidableEq

/-- The 15-minute correlation window, in milliseconds. -/
def CORRELATION_WINDOW_MS : Nat := 15 * 60 * 1000

/-- Modelled from the spec: an incident matches a detection event when its
`(tenant, project, rule-family)` correlation key equals the event's
(`family` strips the rule id to its family), its status is `open`, and it
was updated within the last 15 minutes.  The missing piece is the
correlator service, absent from src/. -/
def incidentMatches (now : Nat) (family : String → String) (ev : DetectionEvent)
    (i : Incident) : Bool :=
  i.tenant == ev.tenant && i.project == ev.project && i.ruleFamily == family ev.ruleId &&
  i.status == IncidentStatus.open_ && decide (now - i.updatedAt ≤ CORRELATION_WINDOW_MS)

/-- Modelled from the spec: union of the affected-services set with the
event's service. -/
def unionService (services : List String) (svc : String) : List String :=
  if svc ∈ services then services else services ++ [svc]

/-- Modelled from the spec: appending a detection event to an incident —
increment the detection count, union affected services, lift severity to
the max, touch `updatedAt`. -/
def appendEvent (now : Nat) (ev : DetectionEvent) (i : Incident) : Incident :=
  { i with
    detectionCount := i.detectionCount + 1,
    affectedServices := unionService i.affectedServices ev.service,
    severity := maxSeverity i.severity ev.severity,
    updatedAt := now }

/-- Modelled from the spec: a fresh incident opened for a detection event,
with status `open`, the event's severity, and detection count 1. -/
def newIncident (now : Nat) (family : String → String) (ev : DetectionEvent) : Incident :=
  { tenant := ev.tenant, project := ev.project, ruleFamily := family ev.ruleId,
    status := .open_, severity := ev.severity, detectionCount := 1,
    affectedServices := [ev.service], createdAt := now, updatedAt := now }

/-- Modelled from the spec: the correlator handling one detection event over
the incident list — append to the first matching open fresh incident,
otherwise open a new incident.  The missing piece is the correlator
service, absent from src/. -/
def correlate (now : Nat) (family : String → String) (ev : DetectionEvent) :
    List Incident → List Incident
  | [] => [newIncident now family ev]
  | i :: rest =>
    if incidentMatches now family ev i then appendEvent now ev i :: rest
    else i :: correlate now family ev rest

/-- Concrete detection event used in witnesses. -/
def evW : DetectionEvent :=
  { tenant := "t1", project := "p1", ruleId := "high-error-rate",
    severity := .high, service := "api" }

/-! ## Helper lemmas on the chunk loop -/

theorem chunkLoop_flatten (l : List String) : (chunkLoop l).flatten = l := by
  induction l using chunkLoop.induct with
  | case1 => simp [chunkLoop]
  | case2 x xs ih =>
    rw [chunkLoop, List.flatten_cons, ih, List.take_append_drop]

theorem chunkLoop_length (l : List String) :
    (chunkLoop l).length = (l.length + MAX_LOG_IDS_PER_CHUNK - 1) / MAX_LOG_IDS_PER_CHUNK := by
  induction l using chunkLoop.induct with
  | case1 => simp [chunkLoop, MAX_LOG_IDS_PER_CHUNK, MAX_PAYLOAD_SIZE, BYTES_PER_LOG_ID]
  | case2 x xs ih =>
    rw [chunkLoop]
    simp only [List.length_cons, ih, List.length_drop]
    simp only [MAX_LOG_IDS_PER_CHUNK, MAX_PAYLOAD_SIZE, BYTES_PER_LOG_ID]
    norm_num
    omega

theorem chunkLoop_getElem (l : List String) (k : Nat) (hk : k < (chunkLoop l).length) :
    (chunkLoop l)[k]? =
      some ((l.drop (MAX_LOG_IDS_PER_CHUNK * k)).take MAX_LOG_IDS_PER_CHUNK) := by
  induction l using chunkLoop.induct generalizing k with
  | case1 => simp [chunkLoop] at hk
  | case2 x xs ih =>
    rw [chunkLoop] at hk ⊢
    match k with
    | 0 => simp
    | k + 1 =>
      simp only [List.getElem?_cons_succ]
      rw [ih k (by simpa using hk), List.drop_drop]
      congr 2
      ring_nf

theorem chunkLoop_mem_length (l c : List String) (hc : c ∈ chunkLoop l) :
    c.length ≤ MAX_LOG_IDS_PER_CHUNK := by
  induction l using chunkLoop.induct with
  | case1 => simp [chunkLoop] at hc
  | case2 x xs ih =>
    rw [chunkLoop] at hc
    rcases List.mem_cons.mp hc with h | h
    · subst h
      exact List.length_take_le _ _
    · exact ih h

theorem publishChunks_eq_chunkLoop (l : List String) (h : l ≠ []) :
    publishLogIngestionChunks l = chunkLoop l := by
  unfold publishLogIngestionChunks
  have hlen : ¬ l.length = 0 := fun hc => h (List.length_eq_zero.mp hc)
  rw [if_neg hlen]
  by_cases hgt : l.length > MAX_LOG_IDS_PER_CHUNK
  · rw [if_pos hgt]
  · rw [if_neg hgt]
    match l, h with
    | x :: xs, _ =>
      rw [chunkLoop]
      have hle : (x :: xs).length ≤ MAX_LOG_IDS_PER_CHUNK := by omega
      rw [List.take_of_length_le hle, List.drop_eq_nil_of_le hle]
      simp [chunkLoop]

/-! ## Claim theorems -/

/-- C1: for every non-empty list of n log ids passed to `publishLogIngestion`,
exactly ⌈n/197⌉ notifications are emitted on `logs_new`
(`MAX_LOG_IDS_PER_CHUNK = ⌊7900/40⌋ = 197`), the k-th emitted chunk is the
contiguous slice of the input starting at offset 197·k holding at most 197
ids, and the concatenation of the chunks in emission order is the input. -/
theorem c1_publish_chunking (logIds : List String) (h : logIds ≠ []) :
    MAX_LOG_IDS_PER_CHUNK = 197 ∧
    (publishLogIngestionChunks logIds).length =
      (logIds.length + MAX_LOG_IDS_PER_CHUNK - 1) / MAX_LOG_IDS_PER_CHUNK ∧
    (∀ k, k < (publishLogIngestionChunks logIds).length →
      (publishLogIngestionChunks logIds)[k]? =
        some ((logIds.drop (MAX_LOG_IDS_PER_CHUNK * k)).take MAX_LOG_IDS_PER_CHUNK)) ∧
    (∀ c ∈ publishLogIngestionChunks logIds, c.length ≤ MAX_LOG_IDS_PER_CHUNK) ∧
    (publishLogIngestionChunks logIds).flatten = logIds := by
  rw [publishChunks_eq_chunkLoop logIds h]
  exact ⟨by decide, chunkLoop_length logIds,
    fun k hk => chunkLoop_getElem logIds k hk,
    fun c hc => chunkLoop_mem_length logIds c hc,
    chunkLoop_flatten logIds⟩

/-- Witness for C1 at the concrete input `["a", "b", "c"]`. -/
theorem c1_publish_chunking_witness :
    (["a", "b", "c"] : List String) ≠ [] ∧
    (publishLogIngestionChunks ["a", "b", "c"]).length =
      (3 + MAX_LOG_IDS_PER_CHUNK - 1) / MAX_LOG_IDS_PER_CHUNK ∧
    (publishLogIngestionChunks ["a", "b", "c"]).flatten = ["a", "b", "c"] := by
  have h : (["a", "b", "c"] : List String) ≠ [] := by decide
  have hc := c1_publish_chunking ["a", "b", "c"] h
  exact ⟨h, hc.2.1, hc.2.2.2.2⟩

/-- C6: `publishLogIngestion` never raises to its caller — for every send
behaviour the result is a normal return, and when the body fails with `e`
the call still returns normally with `e` recorded as the logged error. -/
theorem c6_publish_never_throws (send : String → List String → Except String Unit)
    (projectId : String) (logIds : List String) :
    (∃ logged, publishLogIngestion send projectId logIds = .ok logged) ∧
    (∀ e, logIds.length ≠ 0 →
      sendAll send projectId (publishLogIngestionChunks logIds) = .error e →
      publishLogIngestion send projectId logIds = .ok (some e)) := by
  constructor
  · unfold publishLogIngestion
    by_cases hlen : logIds.length = 0
    · exact ⟨none, by rw [if_pos hlen]⟩
    · rw [if_neg hlen]
      cases hs : sendAll send projectId (publishLogIngestionChunks logIds) with
      | ok _ => exact ⟨none, rfl⟩
      | error e => exact ⟨some e, rfl⟩
  · intro e hlen hs
    unfold publishLogIngestion
    rw [if_neg hlen, hs]

/-- Witness for C6 with a send that always fails. -/
theorem c6_publish_never_throws_witness :
    publishLogIngestion (fun _ _ => .error "db down") "p" ["a"] = .ok (some "db down") :=
  (c6_publish_never_throws (fun _ _ => .error "db down") "p" ["a"]).2 "db down"
    (by decide) (by rfl)

/-- C5 counterexample: the batch holding `upperSpanLog` (uppercase-hex
span_id) passes schema validation — the span regex carries the `i` flag —
although claim C5's lowercase-pattern condition rejects it; the batch
holding `badTimeLog` satisfies every condition claim C5 lists yet is
rejected, because the schema also validates the `time` field, which the
claim's if-and-only-if omits. -/
theorem c5_validation_cex :
    ingestRequestValid [upperSpanLog] = true ∧
    batchClaimedValid [upperSpanLog] = false ∧
    ingestRequestValid [badTimeLog] = false ∧
    batchClaimedValid [badTimeLog] = true := by
  decide

/-- C5 amended: a batch passes validation iff it has 1 to 1000 logs and every
log has a valid `time` (ISO datetime string or Date), a service name of 1 to
100 characters, a level in the known set, a non-empty message, and, when
present, a span_id matching `[a-f0-9]` of length 16 case-insensitively. -/
theorem c5_validation_amended (logs : List LogInput) :
    ingestRequestValid logs = true ↔
      (1 ≤ logs.length ∧ logs.length ≤ 1000 ∧
       ∀ l ∈ logs, timeValid l.time = true ∧
         1 ≤ l.service.length ∧ l.service.length ≤ 100 ∧
         l.level ∈ LOG_LEVELS ∧
         1 ≤ l.message.length ∧
         spanIdValid l.span_id = true) := by
  simp only [ingestRequestValid, logValid, Bool.and_eq_true, decide_eq_true_iff,
    List.all_eq_true, List.elem_eq_mem, decide_eq_true_eq, and_assoc]

/-- Witness for C5 amended: a concrete fully valid one-log batch. -/
theorem c5_validation_amended_witness : ingestRequestValid [goodLog] = true :=
  (c5_validation_amended [goodLog]).mpr (by decide)

/-- C8 counterexample: the Redis `retryStrategy` delay is linear in the
attempt number (2000ms, then 3000ms), not exponential — the third delay is
neither double the second nor the exponential-formula value. -/
theorem c8_retry_cex :
    retryStrategy 2 = 2000 ∧ retryStrategy 3 = 3000 ∧
    retryStrategy 3 ≠ 2 * retryStrategy 2 ∧
    retryStrategy 3 ≠ min (1000 * 2 ^ (3 - 1)) 30000 := by
  decide

/-- C8 amended: the external key-value queue backend retries with a linear
backoff of 1000·k ms capped at 30000 ms, and reconnect-on-error triggers
exactly when the error message includes one of READONLY, ECONNRESET,
ECONNREFUSED. -/
theorem c8_retry_amended (times : Nat) (message : String) :
    retryStrategy times = min (1000 * times) 30000 ∧
    (times ≤ 30 → retryStrategy times = 1000 * times) ∧
    (30 ≤ times → retryStrategy times = 30000) ∧
    (reconnectOnError message = true ↔
      (strContainsSub message "READONLY" = true ∨
       strContainsSub message "ECONNRESET" = true ∨
       strContainsSub message "ECONNREFUSED" = true)) := by
  refine ⟨by unfold retryStrategy; rw [Nat.mul_comm], ?_, ?_, ?_⟩
  · intro h
    unfold retryStrategy
    omega
  · intro h
    unfold retryStrategy
    omega
  · simp [reconnectOnError, redisTargetErrors]

/-- Witness for C8 amended: capped delay at attempt 31, and a transient
connection-reset message triggers reconnect. -/
theorem c8_retry_amended_witness :
    retryStrategy 31 = 30000 ∧ reconnectOnError "read ECONNRESET by peer" = true := by
  have h := c8_retry_amended 31 "read ECONNRESET by peer"
  exact ⟨h.2.2.1 (by decide), h.2.2.2.mpr (Or.inr (Or.inl (by decide)))⟩

/-! ## Helper lemmas on the association-list Map model -/

theorem assocGet_set_self {α : Type} (k : String) (v : α) (m : List (String × α)) :
    assocGet k (assocSet k v m) = some v := by
  induction m with
  | nil => simp [assocSet, assocGet]
  | cons p rest ih =>
    obtain ⟨k', v'⟩ := p
    by_cases h : k' = k
    · subst h
      simp [assocSet, assocGet]
    · simp [assocSet, assocGet, h, ih]

theorem assocGet_set_ne {α : Type} (k k' : String) (v : α) (m : List (String × α))
    (h : k' ≠ k) : assocGet k' (assocSet k v m) = assocGet k' m := by
  have hne : ¬ (k = k') := fun hc => h hc.symm
  induction m with
  | nil => simp [assocSet, assocGet, hne]
  | cons p rest ih =>
    obtain ⟨k0, v0⟩ := p
    by_cases h0 : k0 = k
    · subst h0
      simp [assocSet, assocGet, hne]
    · simp only [assocSet, if_neg h0, assocGet]
      by_cases h1 : k0 = k'
      · simp [h1]
      · simp [h1, ih]

theorem assocGet_delete_ne {α : Type} (k i : String) (m : List (String × α))
    (h : k ≠ i) : assocGet k (assocDelete i m) = assocGet k m := by
  induction m with
  | nil => simp [assocDelete]
  | cons p rest ih =>
    obtain ⟨k0, v0⟩ := p
    by_cases h0 : k0 = i
    · subst h0
      have hne : ¬ (k0 = k) := fun hc => h hc.symm
      simp [assocDelete, assocGet, hne]
    · simp only [assocDelete, if_neg h0, assocGet]
      by_cases h1 : k0 = k
      · simp [h1]
      · simp [h1, ih]

theorem assocGet_eq_none_of_not_mem {α : Type} (k : String) (m : List (String × α))
    (h : k ∉ assocKeys m) : assocGet k m = none := by
  induction m with
  | nil => simp [assocGet]
  | cons p rest ih =>
    obtain ⟨k0, v0⟩ := p
    have h1 : ¬ (k0 = k) := by
      intro hc
      exact h (by simp only [assocKeys, List.map_cons, List.mem_cons]; exact Or.inl hc.symm)
    have h2 : k ∉ assocKeys rest := by
      intro hc
      exact h (by simp only [assocKeys, List.map_cons, List.mem_cons]; exact Or.inr hc)
    simp only [assocGet, if_neg h1]
    exact ih h2

theorem assocKeys_set_of_mem {α : Type} (k : String) (v : α) (m : List (String × α))
    (h : k ∈ assocKeys m) : assocKeys (assocSet k v m) = assocKeys m := by
  induction m with
  | nil => simp [assocKeys] at h
  | cons p rest ih =>
    obtain ⟨k0, v0⟩ := p
    by_cases h0 : k0 = k
    · subst h0
      simp [assocSet, assocKeys]
    · have hrest : k ∈ assocKeys rest := by
        simp only [assocKeys, List.map_cons, List.mem_cons] at h
        rcases h with h | h
        · exact absurd h.symm h0
        · exact h
      simp only [assocSet, if_neg h0, assocKeys, List.map_cons]
      rw [show List.map Prod.fst (assocSet k v rest) = assocKeys (assocSet k v rest) from rfl,
        ih hrest]
      rfl

theorem assocKeys_set_of_not_mem {α : Type} (k : String) (v : α) (m : List (String × α))
    (h : k ∉ assocKeys m) : assocKeys (assocSet k v m) = assocKeys m ++ [k] := by
  induction m with
  | nil => simp [assocSet, assocKeys]
  | cons p rest ih =>
    obtain ⟨k0, v0⟩ := p
    have h1 : ¬ (k0 = k) := by
      intro hc
      exact h (by simp only [assocKeys, List.map_cons, List.mem_cons]; exact Or.inl hc.symm)
    have h2 : k ∉ assocKeys rest := by
      intro hc
      exact h (by simp only [assocKeys, List.map_cons, List.mem_cons]; exact Or.inr hc)
    simp only [assocSet, if_neg h1, assocKeys, List.map_cons, List.cons_append,
      List.cons.injEq, true_and]
    exact ih h2

theorem assocKeys_set_nodup {α : Type} (k : String) (v : α) (m : List (String × α))
    (h : (assocKeys m).Nodup) : (assocKeys (assocSet k v m)).Nodup := by
  by_cases hm : k ∈ assocKeys m
  · rw [assocKeys_set_of_mem k v m hm]
    exact h
  · rw [assocKeys_set_of_not_mem k v m hm]
    simp [List.nodup_append, h, List.disjoint_singleton, hm]

theorem assocKeys_delete_sublist {α : Type} (k : String) (m : List (String × α)) :
    (assocKeys (assocDelete k m)).Sublist (assocKeys m) := by
  induction m with
  | nil => simp [assocDelete]
  | cons p rest ih =>
    obtain ⟨k0, v0⟩ := p
    by_cases h0 : k0 = k
    · subst h0
      simp only [assocDelete, if_pos rfl, assocKeys, List.map_cons]
      exact List.sublist_cons_of_sublist _ (List.Sublist.refl _)
    · simp only [assocDelete, if_neg h0, assocKeys, List.map_cons]
      exact List.Sublist.cons₂ _ ih

theorem assocKeys_delete_nodup {α : Type} (k : String) (m : List (String × α))
    (h : (assocKeys m).Nodup) : (assocKeys (assocDelete k m)).Nodup :=
  (assocKeys_delete_sublist k m).nodup h

theorem assocGet_delete_self {α : Type} (k : String) (m : List (String × α))
    (h : (assocKeys m).Nodup) : assocGet k (assocDelete k m) = none := by
  induction m with
  | nil => simp [assocDelete, assocGet]
  | cons p rest ih =>
    obtain ⟨k0, v0⟩ := p
    simp only [assocKeys, List.map_cons, List.nodup_cons] at h
    by_cases h0 : k0 = k
    · subst h0
      simp only [assocDelete, if_pos rfl]
      exact assocGet_eq_none_of_not_mem k0 rest h.1
    · simp only [assocDelete, if_neg h0, assocGet, if_neg h0]
      exact ih h.2

/-! ## Helper lemmas on the listener state machine -/

theorem scheduleReconnect_subscribers (s : NMState) :
    (scheduleReconnect s).1.subscribers = s.subscribers := by
  unfold scheduleReconnect
  by_cases h1 : (s.reconnectTimerSet || s.isShuttingDown) = true
  · rw [if_pos h1]
  · rw [if_neg h1]
    dsimp only
    by_cases h2 : s.reconnectAttempts + 1 > maxReconnectAttempts
    · rw [if_pos h2]
    · rw [if_neg h2]

theorem handleDisconnect_subscribers (s : NMState) :
    (handleDisconnect s).1.subscribers = s.subscribers := by
  unfold handleDisconnect
  dsimp only
  by_cases h : s.isShuttingDown = true
  · rw [if_pos h]
  · rw [if_neg h]
    exact scheduleReconnect_subscribers _

theorem connect_subscribers (ok : Bool) (s : NMState) (r : NMState × Option Nat)
    (h : connect ok s = .ok r) : r.1.subscribers = s.subscribers := by
  unfold connect at h
  cases hu : s.databaseUrl with
  | none =>
    rw [hu] at h
    cases h
  | some u =>
    rw [hu] at h
    cases ok with
    | true =>
      rw [if_pos rfl] at h
      cases h
      rfl
    | false =>
      rw [if_neg Bool.false_ne_true] at h
      cases h
      exact scheduleReconnect_subscribers _

/-- C2: a registered subscriber's callback is dispatched for a notification
message iff the channel is `logs_new`, the payload is present and parses as
JSON, and the subscriber's `projectId` equals the payload's; other channels,
missing or malformed payloads, and non-matching `projectId`s dispatch
nothing. -/
theorem c2_dispatch_iff (parseJson : String → Option LogNotificationEvent)
    (hEmpty : parseJson "" = none) (s : NMState) (msg : PgNotification)
    (sub : LogSubscriber) :
    sub ∈ handleNotification parseJson s msg ↔
      (sub ∈ assocValues s.subscribers ∧ msg.channel = "logs_new" ∧
       ∃ p event, msg.payload = some p ∧ parseJson p = some event ∧
         sub.projectId = event.projectId) := by
  obtain ⟨ch, pl⟩ := msg
  unfold handleNotification
  by_cases hch : ch = "logs_new"
  · subst hch
    simp only [bne_self_eq_false, Bool.false_or]
    cases pl with
    | none =>
      simp [payloadFalsy]
    | some p =>
      by_cases hpe : p = ""
      · subst hpe
        simp [payloadFalsy, hEmpty]
      · have hf : payloadFalsy (some p) = false := by
          simp [payloadFalsy, hpe]
        rw [hf]
        simp only [if_neg Bool.false_ne_true]
        cases hpj : parseJson p with
        | none =>
          simp [hpj]
        | some event =>
          simp [List.mem_filter, hpj]
  · have hb : (ch != "logs_new") = true := by
      simp [bne_iff_ne, hch]
    rw [hb]
    simp [hch]

/-- Witness for C2: the concrete subscriber of project P1 is dispatched a
well-formed `logs_new` message whose payload carries P1. -/
theorem c2_dispatch_iff_witness : subW ∈ handleNotification parseW nmStateW msgW :=
  (c2_dispatch_iff parseW (by decide) nmStateW msgW subW).mpr
    ⟨by decide, rfl, "PAYLOAD1", ⟨"P1", ["id1"], "2024-01-01T00:00:00Z"⟩,
      rfl, by decide, rfl⟩

/-- C3 counterexample: in the concrete state reached after ten failed
reconnect attempts (not shutting down, no timer pending), the next
`scheduleReconnect` call schedules nothing — as the claim states — but also
emits nothing at all: the source only logs `Max reconnect attempts reached`,
so no terminal error event is emitted, refuting the claim's last conjunct. -/
theorem c3_backoff_cex :
    (scheduleReconnect nmAfterTenFailures).2 = none ∧
    (scheduleReconnect nmAfterTenFailures).1.emittedEvents
      = nmAfterTenFailures.emittedEvents := by
  decide

/-- C3 amended: while not shutting down and with no timer pending, the k-th
consecutive reconnect attempt (k-1 failures recorded so far, k ≤ 10) is
scheduled after exactly `min(1000·2^(k-1), 30000)` ms; once 10 attempts have
failed, no further reconnect is scheduled and no event is emitted (the
source only writes a log line). -/
theorem c3_backoff_amended (s : NMState)
    (hsd : s.isShuttingDown = false) (ht : s.reconnectTimerSet = false) :
    (s.reconnectAttempts < maxReconnectAttempts →
      (scheduleReconnect s).2 = some (min (1000 * 2 ^ s.reconnectAttempts) 30000) ∧
      (scheduleReconnect s).1.reconnectAttempts = s.reconnectAttempts + 1 ∧
      (scheduleReconnect s).1.reconnectTimerSet = true) ∧
    (maxReconnectAttempts ≤ s.reconnectAttempts →
      (scheduleReconnect s).2 = none ∧
      (scheduleReconnect s).1.emittedEvents = s.emittedEvents ∧
      (scheduleReconnect s).1.reconnectTimerSet = false) := by
  unfold scheduleReconnect
  rw [ht, hsd]
  simp only [Bool.or_self, Bool.false_eq_true, if_false]
  constructor
  · intro hlt
    have hcond : ¬ (s.reconnectAttempts + 1 > maxReconnectAttempts) := by
      unfold maxReconnectAttempts at hlt ⊢
      omega
    rw [if_neg hcond]
    exact ⟨by simp, rfl, rfl⟩
  · intro hge
    have hcond : s.reconnectAttempts + 1 > maxReconnectAttempts := by
      unfold maxReconnectAttempts at hge ⊢
      omega
    rw [if_pos hcond]
    exact ⟨rfl, rfl, rfl⟩

/-- Witness for C3 amended: from the fresh state the first attempt is
scheduled after 1000 ms. -/
theorem c3_backoff_amended_witness :
    (scheduleReconnect initialNMState).2 = some 1000 := by
  have h := ((c3_backoff_amended initialNMState rfl rfl).1 (by decide)).1
  simpa using h

/-- C4: a connection error's disconnect, the reconnect scheduling, and every
reconnect attempt (timer firing, successful or failed connect) leave the
subscriber registry unchanged — every subscriber registered before is still
registered, with the same filter and callback, after; entries are removed
only by `unsubscribe` (which touches only its own id) or by `shutdown`,
which clears them all. -/
theorem c4_reconnect_frame (s : NMState) (ok : Bool) (sub : LogSubscriber) (i k : String) :
    ((handleDisconnect s).1.subscribers = s.subscribers) ∧
    ((scheduleReconnect s).1.subscribers = s.subscribers) ∧
    (∀ r, connect ok s = .ok r → r.1.subscribers = s.subscribers) ∧
    (∀ r, reconnectTimerFire ok s = .ok r → r.1.subscribers = s.subscribers) ∧
    (k ≠ sub.id → assocGet k (subscribe sub s).1.subscribers = assocGet k s.subscribers) ∧
    (k ≠ i → assocGet k (unsubscribe i s).subscribers = assocGet k s.subscribers) ∧
    ((shutdownNM s).subscribers = []) :=
  ⟨handleDisconnect_subscribers s, scheduleReconnect_subscribers s,
    fun r h => connect_subscribers ok s r h,
    fun r h => connect_subscribers ok { s with reconnectTimerSet := false } r h,
    fun h => assocGet_set_ne sub.id k sub s.subscribers h,
    fun h => assocGet_delete_ne k i s.subscribers h, rfl⟩

/-- Witness for C4 at a concrete state with one registered subscriber. -/
theorem c4_reconnect_frame_witness :
    (handleDisconnect nmStateW).1.subscribers = nmStateW.subscribers ∧
    assocGet "other" (unsubscribe "x" nmStateW).subscribers
      = assocGet "other" nmStateW.subscribers := by
  have h := c4_reconnect_frame nmStateW true subW "x" "other"
  exact ⟨h.1, h.2.2.2.2.2.1 (by decide)⟩

theorem applyOps_nodup (ops : List RegOp) (s : NMState)
    (h : (assocKeys s.subscribers).Nodup) :
    (assocKeys (applyOps ops s).subscribers).Nodup := by
  induction ops generalizing s with
  | nil => exact h
  | cons op rest ih =>
    cases op with
    | sub x => exact ih _ (assocKeys_set_nodup x.id x s.subscribers h)
    | unsub i => exact ih _ (assocKeys_delete_nodup i s.subscribers h)

/-- C10: under any sequence of subscribe/unsubscribe calls the registry
holds at most one subscriber per connection id; subscribing an id that is
already registered replaces its entry in place (same lookup result, no
second entry) instead of failing; and the handle returned by `subscribe`
is the subscriber's id, which `unsubscribe` removes. -/
theorem c10_registry_invariant (ops : List RegOp) (s : NMState) (sub : LogSubscriber)
    (k : String) (hnd : (assocKeys s.subscribers).Nodup) :
    ((assocKeys (applyOps ops initialNMState).subscribers).Nodup) ∧
    (assocGet sub.id (subscribe sub s).1.subscribers = some sub) ∧
    (k ≠ sub.id → assocGet k (subscribe sub s).1.subscribers = assocGet k s.subscribers) ∧
    (sub.id ∈ assocKeys s.subscribers →
      assocKeys (subscribe sub s).1.subscribers = assocKeys s.subscribers) ∧
    ((subscribe sub s).2 = sub.id) ∧
    (assocGet sub.id
      (unsubscribe (subscribe sub s).2 (subscribe sub s).1).subscribers = none) :=
  ⟨applyOps_nodup ops initialNMState (by simp [initialNMState, assocKeys]),
   assocGet_set_self sub.id sub s.subscribers,
   fun h => assocGet_set_ne sub.id k sub s.subscribers h,
   fun h => assocKeys_set_of_mem sub.id sub s.subscribers h,
   rfl,
   assocGet_delete_self sub.id _ (assocKeys_set_nodup sub.id sub s.subscribers hnd)⟩

/-- Witness for C10: re-subscribing `subW`'s id replaces the entry, and the
returned handle unsubscribes it. -/
theorem c10_registry_invariant_witness :
    assocGet subW.id (subscribe subW nmStateW).1.subscribers = some subW ∧
    assocGet subW.id
      (unsubscribe (subscribe subW nmStateW).2 (subscribe subW nmStateW).1).subscribers
      = none := by
  have h := c10_registry_invariant [] nmStateW subW "other" (by decide)
  exact ⟨h.2.1, h.2.2.2.2.2⟩

/-- C7: on an initialised queue system, a second `createQueue` call with the
same name returns exactly the instance and state of the first call, and a
repeated `createWorker` call returns the first call's worker regardless of
the processor argument. -/
theorem c7_cache_idempotent (s s1 s2 : QSState) (name : String) (p p' : Nat)
    (q : QueueInst) (w : WorkerInst) :
    (createQueue name s = .ok (q, s1) → createQueue name s1 = .ok (q, s1)) ∧
    (createWorker name p s = .ok (w, s2) → createWorker name p' s2 = .ok (w, s2)) := by
  constructor
  · intro h
    unfold createQueue at h ⊢
    cases hc : s.config with
    | none =>
      rw [hc] at h
      cases h
    | some b =>
      rw [hc] at h
      cases hg : assocGet name s.queueCache with
      | some cached =>
        rw [hg] at h
        simp only [Except.ok.injEq, Prod.mk.injEq] at h
        obtain ⟨rfl, rfl⟩ := h
        rw [hc, hg]
      | none =>
        rw [hg] at h
        simp only [Except.ok.injEq, Prod.mk.injEq] at h
        obtain ⟨rfl, rfl⟩ := h
        dsimp only
        rw [assocGet_set_self]
  · intro h
    unfold createWorker at h ⊢
    cases hc : s.config with
    | none =>
      rw [hc] at h
      cases h
    | some b =>
      rw [hc] at h
      cases hg : assocGet name s.workerCache with
      | some cached =>
        rw [hg] at h
        simp only [Except.ok.injEq, Prod.mk.injEq] at h
        obtain ⟨rfl, rfl⟩ := h
        rw [hc, hg]
      | none =>
        rw [hg] at h
        simp only [Except.ok.injEq, Prod.mk.injEq] at h
        obtain ⟨rfl, rfl⟩ := h
        dsimp only
        rw [assocGet_set_self]

/-- Witness for C7 at concrete first-call results (the repeated worker call
passes a different processor token, 99 instead of 5, and still gets the
cached worker built with 5). -/
theorem c7_cache_idempotent_witness :
    createQueue "scan" qsAfterQueueW = .ok (queueW, qsAfterQueueW) ∧
    createWorker "scan" 99 qsAfterWorkerW = .ok (workerW, qsAfterWorkerW) := by
  have h := c7_cache_idempotent qsInit qsAfterQueueW qsAfterWorkerW "scan" 5 99 queueW workerW
  exact ⟨h.1 (by rfl), h.2 (by rfl)⟩

theorem correlate_append_first_match (now : Nat) (family : String → String)
    (ev : DetectionEvent) (pre : List Incident) (i : Incident) (post : List Incident)
    (hpre : ∀ j ∈ pre, incidentMatches now family ev j = false)
    (hm : incidentMatches now family ev i = true) :
    correlate now family ev (pre ++ i :: post) = pre ++ appendEvent now ev i :: post := by
  revert hpre
  induction pre with
  | nil =>
    intro _
    simp [correlate, hm]
  | cons j jrest ih =>
    intro hpre
    have hj : incidentMatches now family ev j = false := hpre j (by simp)
    simp only [List.cons_append, correlate, hj, Bool.false_eq_true, if_false,
      List.cons.injEq, true_and]
    exact ih (fun a ha => hpre a (by simp [ha]))

/-- C9: handling a detection event, the correlator never treats a terminal
(resolved or false_positive) incident as a match; when no incident matches,
it opens a fresh incident with status open, the event's severity and
detection count 1; when the first match is an open incident of the same key
updated within 15 minutes, exactly that incident is updated — detection
count incremented by one, affected services unioned with the event's
service, severity lifted to the max — and all other incidents are kept
unchanged in place.  (Correlator modelled from the spec.) -/
theorem c9_correlator (now : Nat) (family : String → String) (ev : DetectionEvent)
    (incs : List Incident) :
    (∀ i ∈ incs, (i.status = .resolved ∨ i.status = .false_positive) →
      incidentMatches now family ev i = false) ∧
    ((∀ i ∈ incs, incidentMatches now family ev i = false) →
      correlate now family ev incs = incs ++ [newIncident now family ev]) ∧
    ((newIncident now family ev).status = .open_ ∧
     (newIncident now family ev).severity = ev.severity ∧
     (newIncident now family ev).detectionCount = 1 ∧
     (newIncident now family ev).affectedServices = [ev.service]) ∧
    (∀ pre i post, incs = pre ++ i :: post →
      (∀ j ∈ pre, incidentMatches now family ev j = false) →
      incidentMatches now family ev i = true →
      correlate now family ev incs = pre ++ appendEvent now ev i :: post) ∧
    (∀ i : Incident, (appendEvent now ev i).detectionCount = i.detectionCount + 1 ∧
      (appendEvent now ev i).severity = maxSeverity i.severity ev.severity ∧
      (appendEvent now ev i).affectedServices = unionService i.affectedServices ev.service ∧
      (appendEvent now ev i).status = i.status) := by
  refine ⟨?_, ?_, ⟨rfl, rfl, rfl, rfl⟩, ?_, fun i => ⟨rfl, rfl, rfl, rfl⟩⟩
  · intro i _ hst
    rcases hst with h | h <;> simp [incidentMatches, h]
  · induction incs with
    | nil =>
      intro _
      simp [correlate]
    | cons i rest ih =>
      intro hall
      have hi := hall i (List.mem_cons_self i rest)
      simp only [correlate, hi, Bool.false_eq_true, if_false, List.cons_append,
        List.cons.injEq, true_and]
      exact ih (fun j hj => hall j (List.mem_cons_of_mem _ hj))
  · intro pre i post heq hpre hm
    subst heq
    exact correlate_append_first_match now family ev pre i post hpre hm

/-- Witness for C9: with no incidents, a detection event opens a fresh one. -/
theorem c9_correlator_witness :
    correlate 0 id evW [] = [newIncident 0 id evW] :=
  (c9_correlator 0 id evW []).2.1 (by intro i hi; cases hi)

end Logtide
